import Mathlib

/-!
Verification development for the `yt-dwn` Telegram download bot
(`src/main.py`).  The Python source is shallowly embedded below:

* pure helpers (`get_human_readable_formats`, the callback-data builder,
  the size-gated delivery branch of `process_and_send_file`) become Lean
  functions;
* the global `user_states` dictionary becomes an explicit association
  list threaded through the handlers;
* the filesystem is a list of existing paths, `os.remove` and the
  `finally`-cleanup loop become functions on it;
* `uuid.uuid4()` draws are modelled by an explicit supply
  `uuids : Nat → String`, consumed in program order (one draw per
  generated option), which makes the randomness of the ids visible;
* exceptions become `Except`: `handle_download_selected_format` has no
  `except` clause in the source, so its engine-error case returns
  `Except.error` (the error unwinds out of it, after its `finally`
  block ran); the generic `except Exception` clause of
  `handle_format_selection` is the catch that converts it to a user
  message.

Byte sizes of Telegram callback payloads are `len(s.encode("utf-8"))`
in the source; `utf8Len` below is that function on Lean strings.
-/

namespace YtDwn

/-- Number of bytes of the UTF-8 encoding of a character
(models Python `len(ch.encode("utf-8"))`). -/
def charUtf8Len (c : Char) : Nat :=
  if c.val ≤ 0x7F then 1 else if c.val ≤ 0x7FF then 2 else if c.val ≤ 0xFFFF then 3 else 4

/-- `len(s.encode("utf-8"))` from the source's callback-length check. -/
def utf8Len (s : String) : Nat := (s.data.map charUtf8Len).sum

/-- `MAX_TELEGRAM_FILE_SIZE_MB = 50` (src/main.py line 47). -/
def MAX_TELEGRAM_FILE_SIZE_MB : Nat := 50

/-- `MAX_TELEGRAM_FILE_SIZE_BYTES = MAX_TELEGRAM_FILE_SIZE_MB * 1024 * 1024` (line 48). -/
def MAX_TELEGRAM_FILE_SIZE_BYTES : Nat := MAX_TELEGRAM_FILE_SIZE_MB * 1024 * 1024

/-- `TARGET_RESOLUTIONS = [144, 240, 360, 480, 720, 1080, 1440, 2160]` (line 59). -/
def TARGET_RESOLUTIONS : List Nat := [144, 240, 360, 480, 720, 1080, 1440, 2160]

/-- One raw yt-dlp format dict, with the keys `get_human_readable_formats`
reads.  Missing keys are `none`; bitrates (`tbr`, `abr`) are modelled as
naturals. -/
structure RawFormat where
  height : Option Nat
  tbr : Option Nat
  vcodec : Option String
  acodec : Option String
  abr : Option Nat
  ext : String
deriving DecidableEq

/-- The sort key comparison of line 71:
`formats.sort(key=lambda f: (f.get('height') or 0, f.get('tbr') or 0), reverse=True)`.
`sortLe f g` means `f` may be placed before `g` in the descending order
(strictly greater key, or equal-or-smaller-key ties broken by original
order in the stable `insertSorted`/`sortFormats` below). -/
def sortLe (f g : RawFormat) : Bool :=
  (g.height.getD 0 < f.height.getD 0) ||
    ((g.height.getD 0 == f.height.getD 0) && (g.tbr.getD 0 ≤ f.tbr.getD 0))

/-- Stable insertion for the descending sort (an element is inserted after
all earlier elements with an equal key, as CPython's stable `list.sort`). -/
def insertSorted (f : RawFormat) : List RawFormat → List RawFormat
  | [] => [f]
  | g :: rest => if sortLe f g then f :: g :: rest else g :: insertSorted f rest

/-- The in-place `formats.sort(..., reverse=True)` of line 71, as the value
the caller's list holds after the call. -/
def sortFormats : List RawFormat → List RawFormat
  | [] => []
  | f :: rest => insertSorted f (sortFormats rest)

/-- One menu entry produced by `get_human_readable_formats`. -/
structure FormatOption where
  id : String
  label : String
  format_string : String
  is_audio : Bool
deriving DecidableEq

/-- Python truthiness of `f.get('acodec')` (line 77): absent or empty
string is falsy, any other string (including the string `"none"`) truthy. -/
def acodec_truthy (f : RawFormat) : Bool :=
  match f.acodec with
  | none => false
  | some s => !(s == "")

/-- `max(audio_formats, key=lambda f: f.get('abr') or 0, default=None)`
(line 79): the first element attaining the maximum `abr`. -/
def max_by_abr : List RawFormat → Option RawFormat
  | [] => none
  | f :: rest => some (rest.foldl (fun acc g => if acc.abr.getD 0 < g.abr.getD 0 then g else acc) f)

/-- `best_audio_format` of lines 77-79: prefer an `m4a` entry with a truthy
`acodec`, else the highest-`abr` audio-only entry. -/
def best_audio_format (l : List RawFormat) : Option RawFormat :=
  match l.find? (fun f => (f.ext == "m4a") && acodec_truthy f) with
  | some f => some f
  | none => max_by_abr l

/-- The audio-only option appended at lines 82-87 (its content does not
depend on which audio format was found). -/
def audio_option (id : String) : FormatOption :=
  ⟨id, "🎧 Audio Only (MP3)", "bestaudio[ext=m4a]/bestaudio", true⟩

/-- The label of lines 101-107: `f"{h}p MP4"` plus an FHD/HD/SD suffix. -/
def video_label (h : Nat) : String :=
  toString h ++ "p MP4" ++ (if 1080 ≤ h then " (FHD)" else if 720 ≤ h then " (HD)" else " (SD)")

/-- The format selector string of lines 93-97. -/
def video_format_string (h : Nat) : String :=
  "bestvideo[height<=" ++ toString h ++ "][ext=mp4]+bestaudio[ext=m4a]/best[ext=mp4][height<="
    ++ toString h ++ "]/best[ext=mp4]"

/-- The loop of lines 90-115 over `TARGET_RESOLUTIONS[::-1]`, threading the
uuid-draw counter `k` and the `seen_resolutions` set. -/
def ladder_fold (uuids : Nat → String) : List Nat → Nat → List Nat → List FormatOption × Nat
  | [], k, _ => ([], k)
  | h :: rest, k, seen =>
    if seen.contains h then ladder_fold uuids rest k seen
    else
      let opt : FormatOption := ⟨uuids k, video_label h, video_format_string h, false⟩
      let r := ladder_fold uuids rest (k + 1) (h :: seen)
      (opt :: r.1, r.2)

/-- `get_human_readable_formats` (lines 62-125).  The first component is
the returned option list; the second is the value the caller's `formats`
list holds after the call — the function begins by sorting its argument
in place (line 71), so that value is `sortFormats formats`, not
necessarily `formats`.  Each generated option id is a fresh
`str(uuid.uuid4())`, modelled as the next unused element of `uuids`. -/
def get_human_readable_formats (uuids : Nat → String) (formats : List RawFormat) :
    List FormatOption × List RawFormat :=
  let sorted := sortFormats formats
  let audio_formats := sorted.filter fun f => f.vcodec == some "none"
  let audioPart : List FormatOption × Nat :=
    if audio_formats = [] then ([], 0)
    else
      match best_audio_format audio_formats with
      | some _ => ([audio_option (uuids 0)], 1)
      | none => ([], 0)
  let videoPart := ladder_fold uuids TARGET_RESOLUTIONS.reverse audioPart.2 []
  let bestOpt : FormatOption := ⟨uuids videoPart.2, "⚡️ Best Overall Quality", "bestvideo+bestaudio/best", false⟩
  (audioPart.1 ++ (videoPart.1 ++ [bestOpt]), sorted)

/-- `json.dumps({'action': 'download_format', 'option_id': fmt_option['id']})`
(lines 230-233), with `json.dumps`'s default separators. -/
def callback_data (option_id : String) : String :=
  "\x7b\"action\": \"download_format\", \"option_id\": \"" ++ option_id ++ "\"\x7d"

/-- The button-building loop of lines 226-240: a button `(label,
callback_data)` is kept only when the encoded payload is at most 64
bytes (`if len(callback_data.encode('utf-8')) > 64: continue`). -/
def build_keyboard (options : List FormatOption) : List (String × String) :=
  options.filterMap fun o =>
    let cd := callback_data o.id
    if 64 < utf8Len cd then none else some (o.label, cd)

/-- One entry of the global `user_states` dict (line 250): the selection
session for one chat. -/
structure Session where
  url : String
  video_title : String
  message_id : Option Nat
  format_options : List (String × FormatOption)
deriving DecidableEq

/-- The global `user_states` dict, as an association list keyed by chat id. -/
abbrev States := List (Nat × Session)

/-- `user_states.get(chat_id)`. -/
def lookupState (st : States) (c : Nat) : Option Session :=
  (st.find? fun p => p.1 == c).map (·.2)

/-- `user_states[chat_id] = sess` (replaces any previous entry). -/
def setState (st : States) (c : Nat) (s : Session) : States :=
  (c, s) :: st.filter fun p => p.1 ≠ c

/-- `del user_states[chat_id]` (line 338). -/
def eraseState (st : States) (c : Nat) : States :=
  st.filter fun p => p.1 ≠ c

/-- `sess.format_options.get(option_id)` (line 322/326). -/
def lookup_option (s : Session) (oid : String) : Option FormatOption :=
  (s.format_options.find? fun p => p.1 == oid).map (·.2)

/-- Outcome of the single-video branch of `download_youtube_content`
(lines 210-263): which user-facing reply is sent and whether a menu with
buttons is shown. -/
inductive MenuOutcome
  | noFormatsFound
  | noSuitableOptions
  | noValidOptions
  | menuShown (buttons : List (String × String))
deriving DecidableEq

/-- The single-video branch of `download_youtube_content` (lines 210-263):
reject an empty raw format list (line 215), build the human-readable
options, drop over-long buttons, and only if buttons remain store a
session in `user_states` (line 250) and show the menu.  `mid` is the id
of the sent menu message (stored at line 262). -/
def handle_single_video (uuids : Nat → String) (st : States) (chat : Nat)
    (url title : String) (mid : Nat) (formats : List RawFormat) : MenuOutcome × States :=
  if formats = [] then (.noFormatsFound, st)
  else
    let human := (get_human_readable_formats uuids formats).1
    if human = [] then (.noSuitableOptions, st)
    else
      let buttons := build_keyboard human
      if buttons = [] then (.noValidOptions, st)
      else
        let sess : Session := ⟨url, title, some mid, human.map fun o => (o.id, o)⟩
        (.menuShown buttons, setState st chat sess)

/-- What `process_and_send_file` sends as media, per `is_audio_only`
(lines 498-510). -/
inductive MediaKind
  | audio
  | video
deriving DecidableEq

/-- External-collaborator calls other than plain text replies: the two
inline send calls that exist in the source, and an upload to a file host
— which no code path ever performs (no such call exists in src/main.py). -/
inductive ExtCall
  | sendAudio
  | sendVideo
  | uploadToHost
deriving DecidableEq

/-- The user-facing result of `process_and_send_file`: the success message
of line 511, the failure message of line 515 (also reached when the
exception is a `NameError`), or the too-large message of lines 522-526
("You'll need to download it manually from YouTube"). -/
inductive UserReport
  | inlineSuccess (k : MediaKind)
  | inlineFailure
  | tooLargeManualDownload
deriving DecidableEq

/-- The local names bound in `process_and_send_file` (its parameters at
line 484 and its local assignments). -/
def process_and_send_file_locals : List String :=
  ["update", "chat_id", "title", "file_path", "is_audio_only", "file_size", "file_size_mb", "f", "e"]

/-- The names bound at module scope in src/main.py (imports, configuration
constants, and top-level function definitions). -/
def module_globals : List String :=
  ["logging", "os", "time", "re", "Path", "json", "uuid", "yt_dlp",
   "DownloadError", "ExtractorError", "SameFileError", "UnsupportedError",
   "Update", "ForceReply", "InlineKeyboardButton", "InlineKeyboardMarkup",
   "Application", "CommandHandler", "MessageHandler", "CallbackQueryHandler",
   "filters", "ContextTypes", "load_dotenv", "logger", "TOKEN",
   "ADMIN_ID_STR", "ADMIN_ID", "DOWNLOAD_DIR", "MAX_TELEGRAM_FILE_SIZE_MB",
   "MAX_TELEGRAM_FILE_SIZE_BYTES", "YOUTUBE_URL_REGEX", "user_states",
   "TARGET_RESOLUTIONS", "get_human_readable_formats", "start",
   "help_command", "progress_hook", "download_youtube_content",
   "handle_format_selection", "handle_download_selected_format",
   "process_and_send_file", "main"]

/-- Python name resolution inside `process_and_send_file`'s body: a name
resolves iff it is a local of the function or a module global
(`process_and_send_file` is a top-level `def`, so its only enclosing
scope is the module). -/
def resolves_in_send (n : String) : Bool :=
  (process_and_send_file_locals ++ module_globals).contains n

/-- `process_and_send_file` (lines 484-526) for an artifact of `size`
bytes.  The inline branch first evaluates the name `context`
(lines 499/505); when that name does not resolve a `NameError` is raised
before any send call is made, and the generic `except Exception` of
line 513 reports the failure.  `sendOk` is the transport's verdict on a
send that is actually attempted.  The second component lists the
collaborator calls made. -/
def process_and_send_file (sendOk : Bool) (size : Nat) (is_audio_only : Bool) :
    UserReport × List ExtCall :=
  if size ≤ MAX_TELEGRAM_FILE_SIZE_BYTES then
    if resolves_in_send "context" then
      let call := if is_audio_only then ExtCall.sendAudio else ExtCall.sendVideo
      if sendOk then (.inlineSuccess (if is_audio_only then .audio else .video), [call])
      else (.inlineFailure, [call])
    else (.inlineFailure, [])
  else (.tooLargeManualDownload, [])

/-- The two branches of the size gate at line 495. -/
inductive DeliveryBranch
  | inlineSend
  | oversize
deriving DecidableEq

/-- The branch `process_and_send_file` takes, as a function of the size
alone (the comparison at line 495). -/
def delivery_branch (size : Nat) : DeliveryBranch :=
  if size ≤ MAX_TELEGRAM_FILE_SIZE_BYTES then .inlineSend else .oversize

/-- Which branch a given user report came from. -/
def report_branch : UserReport → DeliveryBranch
  | .inlineSuccess _ => .inlineSend
  | .inlineFailure => .inlineSend
  | .tooLargeManualDownload => .oversize

/-- What the extraction engine does for one fetch (`ydl.extract_info(url,
download=True)`, line 456): raise a `DownloadError`/`ExtractorError`,
return no info, or report an output file (`present` says whether the file
actually exists on disk, `size` its byte size). -/
inductive FetchResult
  | engineError (msg : String)
  | noInfo
  | file (path : String) (present : Bool) (size : Nat)
deriving DecidableEq

/-- Per-job outcome of the single-video download path when no exception
escapes: the no-info message of line 475, the missing-or-empty message of
line 466, or the delivery report of `process_and_send_file`. -/
inductive JobOutcome
  | noInfoMsg
  | emptyOutput
  | delivered (r : UserReport)
deriving DecidableEq

/-- The filesystem: the list of paths that currently exist. -/
abbrev FileSys := List String

/-- `os.remove(p)` (line 481): the path no longer exists afterwards. -/
def os_remove (fs : FileSys) (p : String) : FileSys :=
  fs.filter fun q => q ≠ p

/-- One iteration of the cleanup loop of lines 479-481:
`if file_path.exists(): os.remove(file_path)` — an already-missing file
is skipped, never an error. -/
def cleanup_step (fs : FileSys) (p : String) : FileSys :=
  if p ∈ fs then os_remove fs p else fs

/-- The whole `finally` cleanup loop (lines 478-482) over the recorded
`downloaded_files_paths`. -/
def cleanup (fs : FileSys) (recorded : List String) : FileSys :=
  recorded.foldl cleanup_step fs

/-- The engine writing its output file into the download directory. -/
def write_file (fs : FileSys) (p : String) : FileSys :=
  if p ∈ fs then fs else p :: fs

/-- `handle_download_selected_format` (lines 353-482), single-video path.
The body is `try ... finally: cleanup` with no `except` clause: an engine
error runs the `finally` cleanup (over a still-empty
`downloaded_files_paths`) and then unwinds out of the function, so that
case is `Except.error`.  Result: (normal result or escaping exception,
filesystem after the `finally` block, the recorded
`downloaded_files_paths`). -/
def handle_download_selected_format (fetch : FetchResult) (sendOk is_audio : Bool)
    (fs : FileSys) : Except String JobOutcome × FileSys × List String :=
  match fetch with
  | .engineError m => (.error m, cleanup fs [], [])
  | .noInfo => (.ok .noInfoMsg, cleanup fs [], [])
  | .file path present size =>
    let fs1 := if present then write_file fs path else fs
    if path ∈ fs1 ∧ size ≠ 0 then
      let rep := process_and_send_file sendOk size is_audio
      (.ok (.delivered rep.1), cleanup fs1 [path], [path])
    else
      (.ok .emptyOutput, cleanup fs1 [], [])

/-- One inbound callback-query update: the data `handle_format_selection`
reads from it plus oracles for the collaborators it drives (`editOk`:
whether the menu-message edit at line 333 succeeds; `fetch`, `sendOk`:
the engine's and transport's behaviour for the job it starts).  `uid`
tags the update with its enqueue position. -/
structure UpdateStep where
  uid : Nat
  chat : Nat
  action : String
  option_id : String
  editOk : Bool
  fetch : FetchResult
  sendOk : Bool
deriving DecidableEq

/-- The user-facing outcome of `handle_format_selection` (lines 302-350):
invalid-selection reply (line 318), expired reply (line 323), the generic
`except Exception` reply (line 350) — in particular for an engine error
that unwound out of `handle_download_selected_format` — or a normally
completed job. -/
inductive UpdateOutcome
  | invalidSelection
  | expired
  | selectionError
  | downloadErrorCaught (msg : String)
  | jobDone (o : JobOutcome)
deriving DecidableEq

/-- True when the outcome means a download job was actually started
(the session was consumed and `handle_download_selected_format` ran). -/
def job_started : UpdateOutcome → Bool
  | .downloadErrorCaught _ => true
  | .jobDone _ => true
  | _ => false

/-- `handle_format_selection` (lines 302-350): validate the callback
payload, resolve the session and option from `user_states`, edit the menu
message, delete the session (line 338, before the download starts), run
the download, and catch any escaping exception in the generic
`except Exception` clause (line 348), turning it into a user message. -/
def process_update (st : States) (fs : FileSys) (u : UpdateStep) :
    UpdateOutcome × States × FileSys :=
  if u.action ≠ "download_format" ∨ u.option_id = "" then (.invalidSelection, st, fs)
  else
    match lookupState st u.chat with
    | none => (.expired, st, fs)
    | some sess =>
      match lookup_option sess u.option_id with
      | none => (.expired, st, fs)
      | some opt =>
        if u.editOk then
          let st' := eraseState st u.chat
          match handle_download_selected_format u.fetch u.sendOk opt.is_audio fs with
          | (.error m, fs', _) => (.downloadErrorCaught m, st', fs')
          | (.ok o, fs', _) => (.jobDone o, st', fs')
        else (.selectionError, st, fs)

/-- Modelled from the spec: the Job Queue and its single long-lived
consumer.  src/main.py contains no queue of its own — `main` (lines
530-544) registers the handlers on a `telegram.ext.Application` built
with default settings, and that framework (absent from src/) feeds
updates from its FIFO update queue to the handlers one at a time,
sequentially.  This loop drains the queued updates in order, running
`process_update` (from src) on each to completion before taking the
next, threading the session store and the filesystem. -/
def dispatch_loop : List UpdateStep → States → FileSys →
    List (Nat × UpdateOutcome) × States × FileSys
  | [], st, fs => ([], st, fs)
  | u :: rest, st, fs =>
    let r := process_update st fs u
    let w := dispatch_loop rest r.2.1 r.2.2
    ((u.uid, r.1) :: w.1, w.2)

/-- A canonical-form 36-character UUID4 string, a stand-in for one
concrete `str(uuid.uuid4())` draw. -/
def uuid36 : Nat → String := fun _ => "123e4567-e89b-12d3-a456-426614174000"

/-- A second concrete uuid supply (a different random draw sequence). -/
def uuidsA : Nat → String := fun _ => "11111111-1111-4111-8111-111111111111"

/-- A third concrete uuid supply (a different random draw sequence). -/
def uuidsB : Nat → String := fun _ => "22222222-2222-4222-8222-222222222222"

/-- A concrete 360p raw format. -/
def fmtA : RawFormat := ⟨some 360, some 100, some "avc1", some "mp4a", none, "mp4"⟩

/-- A concrete 720p raw format (out of descending order after `fmtA`). -/
def fmtB : RawFormat := ⟨some 720, some 200, some "avc1", some "mp4a", none, "mp4"⟩

/-- A concrete menu option for the witness sessions. -/
def exOpt : FormatOption := ⟨"a", "720p MP4 (HD)", "best[ext=mp4]", false⟩

/-- A concrete selection session holding `exOpt` under id `"a"`. -/
def exSess : Session := ⟨"https://youtu.be/x", "t", some 5, [("a", exOpt)]⟩

/-- A concrete session store with `exSess` live for chat 1. -/
def exSt : States := [(1, exSess)]

/-- A concrete well-formed callback update for chat 1 choosing `"a"`. -/
def exU : UpdateStep := ⟨0, 1, "download_format", "a", true, .noInfo, true⟩

/-- The same choice submitted a second time. -/
def exU2 : UpdateStep := ⟨1, 1, "download_format", "a", true, .noInfo, true⟩

/-- A concrete update whose fetch raises an engine error. -/
def exUerr : UpdateStep := ⟨0, 1, "download_format", "a", true, .engineError "boom", true⟩

/-- Projection of a `FormatOption` without its id. -/
def strip_id (o : FormatOption) : String × String × Bool :=
  (o.label, o.format_string, o.is_audio)

theorem data_append (a b : String) : (a ++ b).data = a.data ++ b.data := by
  cases a; cases b; rfl

theorem utf8Len_append (a b : String) : utf8Len (a ++ b) = utf8Len a + utf8Len b := by
  simp [utf8Len, data_append]

theorem cb_len (s : String) : utf8Len (callback_data s) = 46 + utf8Len s := by
  unfold callback_data
  rw [utf8Len_append, utf8Len_append]
  have h1 : utf8Len "\x7b\"action\": \"download_format\", \"option_id\": \"" = 44 := by decide
  have h2 : utf8Len "\"\x7d" = 2 := by decide
  rw [h1, h2]
  omega

theorem ladder_ids (u : Nat → String) (hs : List Nat) (k : Nat) (seen : List Nat) :
    ∀ o ∈ (ladder_fold u hs k seen).1, ∃ j, o.id = u j := by
  induction hs generalizing k seen with
  | nil => intro o ho; simp [ladder_fold] at ho
  | cons h rest ih =>
    intro o ho
    by_cases hm : seen.contains h
    · rw [ladder_fold, if_pos hm] at ho
      exact ih k seen o ho
    · rw [ladder_fold, if_neg hm] at ho
      rcases List.mem_cons.mp ho with rfl | ho'
      · exact ⟨k, rfl⟩
      · exact ih (k + 1) (h :: seen) o ho'

theorem builder_ids (u : Nat → String) (l : List RawFormat) :
    ∀ o ∈ (get_human_readable_formats u l).1, ∃ j, o.id = u j := by
  intro o ho
  unfold get_human_readable_formats at ho
  simp only at ho
  rcases List.mem_append.mp ho with hA | hBC
  · -- audio part
    set af := (sortFormats l).filter (fun f => f.vcodec == some "none") with haf
    by_cases he : af = []
    · rw [if_pos he] at hA; simp at hA
    · rw [if_neg he] at hA
      cases hb : best_audio_format af with
      | none => rw [hb] at hA; simp at hA
      | some g =>
        rw [hb] at hA
        rcases List.mem_singleton.mp hA with rfl
        exact ⟨0, rfl⟩
  · rcases List.mem_append.mp hBC with hB | hC
    · exact ladder_ids u _ _ _ o hB
    · rcases List.mem_singleton.mp hC with rfl
      exact ⟨_, rfl⟩

theorem builder_option_len (u : Nat → String) (hu : ∀ k, utf8Len (u k) = 36)
    (l : List RawFormat) :
    ∀ o ∈ (get_human_readable_formats u l).1, utf8Len (callback_data o.id) = 82 := by
  intro o ho
  obtain ⟨j, hj⟩ := builder_ids u l o ho
  rw [hj, cb_len, hu]

theorem build_keyboard_nil (opts : List FormatOption)
    (h : ∀ o ∈ opts, 64 < utf8Len (callback_data o.id)) : build_keyboard opts = [] := by
  induction opts with
  | nil => rfl
  | cons o rest ih =>
    have ho := h o (List.mem_cons_self o rest)
    simp only [build_keyboard, List.filterMap_cons]
    rw [if_pos ho]
    exact ih fun o' ho' => h o' (List.mem_cons_of_mem o ho')

theorem builder_ne_nil (u : Nat → String) (l : List RawFormat) :
    (get_human_readable_formats u l).1 ≠ [] := by
  unfold get_human_readable_formats
  simp

theorem handle_single_video_blocked (u : Nat → String) (hu : ∀ k, utf8Len (u k) = 36)
    (st : States) (chat : Nat) (url title : String) (mid : Nat)
    (l : List RawFormat) (hne : l ≠ []) :
    handle_single_video u st chat url title mid l = (.noValidOptions, st) := by
  unfold handle_single_video
  rw [if_neg hne, if_neg (builder_ne_nil u l)]
  have hk : build_keyboard (get_human_readable_formats u l).1 = [] := by
    refine build_keyboard_nil _ fun o ho => ?_
    rw [builder_option_len u hu l o ho]
    omega
  simp [hk]

/-- C1: the claim says an artifact larger than the inline limit triggers a
fallback upload to an external host, reporting a retrievable link or,
failing that, that no delivery path succeeded.  The code has no such
path: for a concrete artifact one byte over the limit,
`process_and_send_file` makes no collaborator call at all (in particular
no `uploadToHost`) and sends the "too large … download it manually from
YouTube" report, which is neither a link report nor preceded by an
upload attempt. -/
theorem C1_counterexample :
    process_and_send_file true (MAX_TELEGRAM_FILE_SIZE_BYTES + 1) false
      = (UserReport.tooLargeManualDownload, ([] : List ExtCall))
    ∧ (process_and_send_file true (MAX_TELEGRAM_FILE_SIZE_BYTES + 1) false).2 = [] := by
  constructor <;> decide

/-- C1 (amended): for every artifact whose size exceeds the inline limit,
the code attempts no fallback upload and produces no link: it makes no
collaborator call and sends the single too-large report telling the user
to download the file manually from YouTube. -/
theorem C1_amended (sendOk is_audio : Bool) (size : Nat)
    (h : MAX_TELEGRAM_FILE_SIZE_BYTES < size) :
    process_and_send_file sendOk size is_audio
      = (UserReport.tooLargeManualDownload, ([] : List ExtCall)) := by
  unfold process_and_send_file
  rw [if_neg (by omega)]

/-- Witness for `C1_amended` at a concrete oversize artifact. -/
theorem C1_amended_witness :
    process_and_send_file false (MAX_TELEGRAM_FILE_SIZE_BYTES + 7) true
      = (UserReport.tooLargeManualDownload, ([] : List ExtCall)) :=
  C1_amended false true (MAX_TELEGRAM_FILE_SIZE_BYTES + 7) (by omega)

/-- C3: the inline-send branch of `process_and_send_file` evaluates the
name `context`, which is neither a parameter of the function nor bound
at module scope, so the send raises a `NameError` before any transport
call is made; the generic `except Exception` handler reports the
delivery failure.  Hence for every artifact within the inline limit the
outcome is the failure report and no send call is ever made — no
artifact is ever delivered inline. -/
theorem C3_thm (sendOk is_audio : Bool) (size : Nat)
    (h : size ≤ MAX_TELEGRAM_FILE_SIZE_BYTES) :
    resolves_in_send "context" = false
    ∧ process_and_send_file sendOk size is_audio
        = (UserReport.inlineFailure, ([] : List ExtCall)) := by
  have hr : resolves_in_send "context" = false := by decide
  refine ⟨hr, ?_⟩
  unfold process_and_send_file
  rw [if_pos h, hr]
  simp

/-- Witness for `C3_thm` at a concrete in-limit artifact. -/
theorem C3_witness :
    resolves_in_send "context" = false
    ∧ process_and_send_file true 1000 false
        = (UserReport.inlineFailure, ([] : List ExtCall)) :=
  C3_thm true false 1000 (by decide)

/-- C8: the delivery path is decided solely by comparing the artifact's
byte size with the configured inline limit: for every send-oracle value
and audio flag, the branch of the produced report equals
`delivery_branch size`; in particular limit − 1 (and the limit itself)
takes the inline-send branch and limit + 1 the oversize branch. -/
theorem C8_thm :
    (∀ (sendOk is_audio : Bool) (size : Nat),
        report_branch (process_and_send_file sendOk size is_audio).1 = delivery_branch size)
    ∧ delivery_branch (MAX_TELEGRAM_FILE_SIZE_BYTES - 1) = DeliveryBranch.inlineSend
    ∧ delivery_branch MAX_TELEGRAM_FILE_SIZE_BYTES = DeliveryBranch.inlineSend
    ∧ delivery_branch (MAX_TELEGRAM_FILE_SIZE_BYTES + 1) = DeliveryBranch.oversize := by
  refine ⟨?_, by decide, by decide, by decide⟩
  intro sendOk is_audio size
  unfold process_and_send_file delivery_branch
  by_cases h : size ≤ MAX_TELEGRAM_FILE_SIZE_BYTES
  · rw [if_pos h, if_pos h]
    cases sendOk <;> cases is_audio <;> split <;> rfl
  · rw [if_neg h, if_neg h]
    rfl

theorem not_mem_os_remove_self (g : FileSys) (p : String) : p ∉ os_remove g p := by
  simp [os_remove]

theorem not_mem_cleanup_step (p q : String) (g : FileSys) (h : p ∉ g) :
    p ∉ cleanup_step g q := by
  unfold cleanup_step
  split
  · intro hc
    exact h (List.mem_of_mem_filter hc)
  · exact h

theorem not_mem_cleanup_step_self (p : String) (g : FileSys) : p ∉ cleanup_step g p := by
  unfold cleanup_step
  split
  · exact not_mem_os_remove_self g p
  · assumption

theorem not_mem_cleanup (p : String) (r : List String) :
    ∀ g : FileSys, p ∉ g → p ∉ cleanup g r := by
  induction r with
  | nil => intro g h; exact h
  | cons q r ih =>
    intro g h
    exact ih (cleanup_step g q) (not_mem_cleanup_step p q g h)

theorem cleanup_removes (p : String) (r : List String) (h : p ∈ r) :
    ∀ g : FileSys, p ∉ cleanup g r := by
  induction r with
  | nil => cases h
  | cons q r ih =>
    intro g
    rcases List.mem_cons.mp h with rfl | hr
    · exact not_mem_cleanup p r (cleanup_step g p) (not_mem_cleanup_step_self p g)
    · exact ih hr (cleanup_step g q)

theorem cleanup_skip (g : FileSys) (q : String) (r : List String) (h : q ∉ g) :
    cleanup g (q :: r) = cleanup g r := by
  simp only [cleanup, List.foldl_cons, cleanup_step, if_neg h]

/-- C7: after a job finishes — delivery succeeded, failed, or was
skipped — every artifact path recorded in `downloaded_files_paths` no
longer exists: (1) the `finally` cleanup loop removes every recorded
path from the filesystem; (2) it tolerates an already-missing file (the
`exists()` guard just skips it); (3) at the job level, every path
recorded by `handle_download_selected_format` is absent from the
filesystem it returns, for every fetch result and send verdict. -/
theorem C7_thm (fs : FileSys) (recorded : List String) (p : String) (hp : p ∈ recorded) :
    p ∉ cleanup fs recorded
    ∧ (∀ (g : FileSys) (q : String) (r : List String), q ∉ g → cleanup g (q :: r) = cleanup g r)
    ∧ ∀ (fetch : FetchResult) (sendOk is_audio : Bool) (g : FileSys) (q : String),
        q ∈ (handle_download_selected_format fetch sendOk is_audio g).2.2 →
        q ∉ (handle_download_selected_format fetch sendOk is_audio g).2.1 := by
  refine ⟨cleanup_removes p recorded hp fs, fun g q r h => cleanup_skip g q r h, ?_⟩
  intro fetch sendOk is_audio g q hq
  cases fetch with
  | engineError m => simp [handle_download_selected_format] at hq
  | noInfo => simp [handle_download_selected_format] at hq
  | file path present size =>
    simp only [handle_download_selected_format] at hq ⊢
    by_cases hc : path ∈ (if present then write_file g path else g) ∧ size ≠ 0
    · rw [if_pos hc] at hq ⊢
      rcases List.mem_singleton.mp hq with rfl
      exact cleanup_removes q [q] (List.mem_singleton.mpr rfl) _
    · rw [if_neg hc] at hq
      simp at hq

/-- Witness for `C7_thm` at a concrete job: a present non-empty artifact
at path `"p"` is recorded and is gone from the filesystem afterwards. -/
theorem C7_witness :
    "p" ∉ cleanup ["p", "x"] ["p"]
    ∧ (∀ (g : FileSys) (q : String) (r : List String), q ∉ g → cleanup g (q :: r) = cleanup g r)
    ∧ ∀ (fetch : FetchResult) (sendOk is_audio : Bool) (g : FileSys) (q : String),
        q ∈ (handle_download_selected_format fetch sendOk is_audio g).2.2 →
        q ∉ (handle_download_selected_format fetch sendOk is_audio g).2.1 :=
  C7_thm ["p", "x"] ["p"] "p" (by decide)

/-- C4: the claim says that for a raw list with no usable encoding — in
particular the empty list — the builder returns an empty result.  It
does not: on the empty list `get_human_readable_formats` still returns
9 options (the eight resolution-ladder entries, emitted without
consulting the raw list at all, plus the best-overall fallback), so its
result is never empty. -/
theorem C4_counterexample :
    (get_human_readable_formats uuid36 ([] : List RawFormat)).1 ≠ []
    ∧ (get_human_readable_formats uuid36 ([] : List RawFormat)).1.length = 9 := by
  constructor <;> decide

/-- C4 (amended): for the empty raw format list the caller path surfaces
the "no downloadable formats found" message without creating a session
or job — via its own emptiness check, before the builder is invoked;
the builder itself, applied to the empty list, returns 9 options (never
an empty result), so the caller's builder-empty branch is not what
rejects it. -/
theorem C4_amended (u : Nat → String) (st : States) (chat : Nat)
    (url title : String) (mid : Nat) :
    handle_single_video u st chat url title mid [] = (.noFormatsFound, st)
    ∧ (get_human_readable_formats u ([] : List RawFormat)).1.length = 9 :=
  ⟨by simp [handle_single_video], rfl⟩

/-- C5: the claim says the builder is pure (leaves its input unchanged)
and that two calls on equal inputs return equal option lists including
equal ids.  Both parts fail on a concrete input: the function sorts the
caller's list in place (line 71), so after a call on `[fmtA, fmtB]` the
input list holds `[fmtB, fmtA]`; and the option ids are fresh
`uuid.uuid4()` draws, so two calls (drawing `uuidsA` resp. `uuidsB`)
return option lists that differ (in their ids). -/
theorem C5_counterexample :
    (get_human_readable_formats uuidsA [fmtA, fmtB]).2 ≠ [fmtA, fmtB]
    ∧ (get_human_readable_formats uuidsA [fmtA, fmtB]).1
        ≠ (get_human_readable_formats uuidsB [fmtA, fmtB]).1 := by
  constructor <;> decide

theorem ladder_strip (u1 u2 : Nat → String) (hs : List Nat) :
    ∀ (k1 k2 : Nat) (seen : List Nat),
      (ladder_fold u1 hs k1 seen).1.map strip_id
        = (ladder_fold u2 hs k2 seen).1.map strip_id := by
  induction hs with
  | nil => intro k1 k2 seen; rfl
  | cons h rest ih =>
    intro k1 k2 seen
    cases hm : seen.contains h
    · simp only [ladder_fold, hm, Bool.false_eq_true, if_false, List.map_cons]
      exact congrArg₂ _ rfl (ih (k1 + 1) (k2 + 1) (h :: seen))
    · simp only [ladder_fold, hm, if_true]
      exact ih k1 k2 seen

/-- C5 (amended): the builder mutates its argument — after a call the
caller's list holds the descending `(height, tbr)` sort of the input —
and the option ids are fresh random UUID draws, so equality across two
calls holds only up to ids: for any two draw sequences, the two calls on
equal inputs return option lists with equal labels, selector strings and
audio flags, in the same order (and for one fixed draw sequence the
function is a pure function of its arguments). -/
theorem C5_amended (u1 u2 : Nat → String) (l : List RawFormat) :
    (get_human_readable_formats u1 l).1.map strip_id
      = (get_human_readable_formats u2 l).1.map strip_id
    ∧ (get_human_readable_formats u1 l).2 = sortFormats l := by
  refine ⟨?_, rfl⟩
  simp only [get_human_readable_formats, List.map_append]
  refine congrArg₂ _ ?_ (congrArg₂ _ ?_ ?_)
  · by_cases ha : (sortFormats l).filter (fun f => f.vcodec == some "none") = []
    · rw [if_pos ha, if_pos ha]
    · rw [if_neg ha, if_neg ha]
      cases best_audio_format ((sortFormats l).filter (fun f => f.vcodec == some "none")) <;> rfl
  · exact ladder_strip u1 u2 TARGET_RESOLUTIONS.reverse _ _ []
  · rfl

/-- C2: every callback token `json.dumps({'action': 'download_format',
'option_id': id})` with a canonical 36-byte UUID id is exactly 82 bytes,
which exceeds the 64-byte limit checked before adding a button; so every
option is dropped, the keyboard is empty, the handler replies that no
valid download options could be generated, no session is stored, and no
format menu with buttons is ever shown for any input. -/
theorem C2_thm (u : Nat → String) (hu : ∀ k, utf8Len (u k) = 36)
    (st : States) (chat : Nat) (url title : String) (mid : Nat)
    (formats : List RawFormat) (hne : formats ≠ []) :
    (∀ o ∈ (get_human_readable_formats u formats).1, utf8Len (callback_data o.id) = 82)
    ∧ handle_single_video u st chat url title mid formats = (.noValidOptions, st)
    ∧ ∀ (l2 : List RawFormat) (bs : List (String × String)),
        (handle_single_video u st chat url title mid l2).1 ≠ .menuShown bs := by
  refine ⟨builder_option_len u hu formats,
    handle_single_video_blocked u hu st chat url title mid formats hne, ?_⟩
  intro l2 bs
  by_cases h2 : l2 = []
  · subst h2
    simp [handle_single_video]
  · rw [handle_single_video_blocked u hu st chat url title mid l2 h2]
    simp

/-- Witness for `C2_thm`: the canonical uuid supply has 36-byte ids, and
on a concrete single-video request every option's token is 82 bytes, the
reply is `noValidOptions`, the store stays empty and no menu is shown. -/
theorem C2_witness :
    (∀ k, utf8Len (uuid36 k) = 36)
    ∧ ((∀ o ∈ (get_human_readable_formats uuid36 [fmtA]).1,
          utf8Len (callback_data o.id) = 82)
       ∧ handle_single_video uuid36 [] 1 "u" "t" 5 [fmtA] = (.noValidOptions, [])
       ∧ ∀ (l2 : List RawFormat) (bs : List (String × String)),
           (handle_single_video uuid36 [] 1 "u" "t" 5 l2).1 ≠ .menuShown bs) :=
  have h36 : ∀ k, utf8Len (uuid36 k) = 36 := fun _ => by
    show utf8Len "123e4567-e89b-12d3-a456-426614174000" = 36
    decide
  ⟨h36, C2_thm uuid36 h36 [] 1 "u" "t" 5 [fmtA] (by decide)⟩

theorem lookupState_erase (st : States) (c : Nat) :
    lookupState (eraseState st c) c = none := by
  have h : (eraseState st c).find? (fun p => p.1 == c) = none := by
    rw [List.find?_eq_none]
    intro x hx
    have hx2 := (List.mem_filter.mp hx).2
    simp only [decide_eq_true_eq] at hx2
    simp [hx2]
  simp [lookupState, h]

theorem process_update_started (st : States) (fs : FileSys) (u : UpdateStep)
    (r : UpdateOutcome) (st' : States) (fs' : FileSys)
    (h : process_update st fs u = (r, st', fs'))
    (hr : job_started r = true) :
    u.action = "download_format" ∧ u.option_id ≠ "" ∧ st' = eraseState st u.chat := by
  unfold process_update at h
  by_cases h1 : u.action ≠ "download_format" ∨ u.option_id = ""
  · rw [if_pos h1] at h
    simp only [Prod.mk.injEq] at h
    rw [← h.1] at hr
    simp [job_started] at hr
  · rw [if_neg h1] at h
    push_neg at h1
    obtain ⟨ha, ho⟩ := h1
    refine ⟨ha, ho, ?_⟩
    cases hs : lookupState st u.chat with
    | none =>
      rw [hs] at h
      simp only [Prod.mk.injEq] at h
      rw [← h.1] at hr
      simp [job_started] at hr
    | some sess =>
      rw [hs] at h
      simp only at h
      cases hop : lookup_option sess u.option_id with
      | none =>
        rw [hop] at h
        simp only [Prod.mk.injEq] at h
        rw [← h.1] at hr
        simp [job_started] at hr
      | some opt =>
        rw [hop] at h
        simp only at h
        by_cases he : u.editOk = true
        · rw [if_pos he] at h
          rcases hd : handle_download_selected_format u.fetch u.sendOk opt.is_audio fs
            with ⟨ex, fs2, rec2⟩
          rw [hd] at h
          cases ex with
          | error m =>
            simp only [Prod.mk.injEq] at h
            exact h.2.1.symm
          | ok o =>
            simp only [Prod.mk.injEq] at h
            exact h.2.1.symm
        · rw [if_neg he] at h
          simp only [Prod.mk.injEq] at h
          rw [← h.1] at hr
          simp [job_started] at hr

/-- C6: `handle_format_selection` resolves a choice at most once.  If a
callback for chat `u.chat` actually starts a job (the session and option
were found and the session consumed), the session is deleted together
with that successful read — `user_states` no longer holds the chat key —
and any second callback with the same chat and option id observes the
"request has expired" outcome and leaves the store unchanged: no second
job is ever started from the same session. -/
theorem C6_thm (st : States) (fs fs2 : FileSys) (u u2 : UpdateStep)
    (r : UpdateOutcome) (st' : States) (fs' : FileSys)
    (h : process_update st fs u = (r, st', fs'))
    (hr : job_started r = true)
    (hc : u2.chat = u.chat) (ha2 : u2.action = "download_format")
    (ho2 : u2.option_id = u.option_id) :
    lookupState st' u.chat = none
    ∧ process_update st' fs2 u2 = (.expired, st', fs2) := by
  obtain ⟨ha, ho, hst⟩ := process_update_started st fs u r st' fs' h hr
  subst hst
  refine ⟨lookupState_erase st u.chat, ?_⟩
  have h1 : ¬(u2.action ≠ "download_format" ∨ u2.option_id = "") := by
    simp [ha2, ho2, ho]
  unfold process_update
  rw [if_neg h1, hc, lookupState_erase st u.chat]

/-- Witness for `C6_thm`: chat 1 resolves option `"a"` from a concrete
live session (the job runs), after which the store no longer has a
session for chat 1 and resubmitting the same option id yields the
expired outcome. -/
theorem C6_witness :
    lookupState ([] : States) exU.chat = none
    ∧ process_update ([] : States) [] exU2 = (.expired, [], []) :=
  C6_thm exSt [] [] exU exU2 (.jobDone .noInfoMsg) [] [] (by decide) rfl rfl rfl rfl

/-- C9: a fetch that raises an engine error does not kill the worker.
The error unwinds out of `handle_download_selected_format` (which has no
`except` clause) only after its `finally` cleanup ran; the generic
`except Exception` clause of `handle_format_selection` catches it and
turns it into a user-facing message (`downloadErrorCaught`); and the
dispatch loop then continues with the remaining queued updates exactly
as it would from the resulting state — the failing job is followed by
the next job, processed to completion. -/
theorem C9_thm (m : String) (st : States) (fs : FileSys) (u : UpdateStep)
    (sess : Session) (opt : FormatOption) (rest : List UpdateStep)
    (ha : u.action = "download_format") (ho : u.option_id ≠ "")
    (hs : lookupState st u.chat = some sess)
    (hop : lookup_option sess u.option_id = some opt)
    (he : u.editOk = true) (hf : u.fetch = .engineError m) :
    handle_download_selected_format (.engineError m) u.sendOk opt.is_audio fs
      = (Except.error m, fs, ([] : List String))
    ∧ process_update st fs u = (.downloadErrorCaught m, eraseState st u.chat, fs)
    ∧ (dispatch_loop (u :: rest) st fs).1
        = (u.uid, UpdateOutcome.downloadErrorCaught m)
            :: (dispatch_loop rest (eraseState st u.chat) fs).1 := by
  have hpu : process_update st fs u = (.downloadErrorCaught m, eraseState st u.chat, fs) := by
    simp [process_update, ha, ho, hs, hop, he, hf, handle_download_selected_format, cleanup]
  refine ⟨rfl, hpu, ?_⟩
  simp [dispatch_loop, hpu]

/-- Witness for `C9_thm`: a concrete engine failure (`"boom"`) for chat
1's job is caught and reported, cleanup runs, and the loop goes on. -/
theorem C9_witness :
    handle_download_selected_format (.engineError "boom") exUerr.sendOk exOpt.is_audio []
      = (Except.error "boom", [], ([] : List String))
    ∧ process_update exSt [] exUerr = (.downloadErrorCaught "boom", eraseState exSt 1, [])
    ∧ (dispatch_loop [exUerr] exSt []).1
        = (exUerr.uid, UpdateOutcome.downloadErrorCaught "boom")
            :: (dispatch_loop [] (eraseState exSt 1) []).1 :=
  C9_thm "boom" exSt [] exUerr exSess exOpt [] rfl (by decide) rfl rfl rfl rfl

/-- C10: the single long-lived consumer drains the queue strictly in
order: for every queue of updates, the outcome list the dispatch loop
produces carries exactly the enqueued update ids, in enqueue order, one
outcome per update — each update is processed to completion (its session
update, download and cleanup applied to the threaded state) before the
next is taken, so jobs are strictly serialized and FIFO. -/
theorem C10_thm (steps : List UpdateStep) (st : States) (fs : FileSys) :
    ((dispatch_loop steps st fs).1).map Prod.fst = steps.map UpdateStep.uid
    ∧ ((dispatch_loop steps st fs).1).length = steps.length := by
  induction steps generalizing st fs with
  | nil => exact ⟨rfl, rfl⟩
  | cons u rest ih =>
    obtain ⟨ih1, ih2⟩ := ih (process_update st fs u).2.1 (process_update st fs u).2.2
    constructor
    · simp only [dispatch_loop, List.map_cons]
      rw [ih1]
    · simp only [dispatch_loop, List.length_cons]
      rw [ih2]

end YtDwn
